import Mathlib

/-
Verification of the long-running-operation poller implemented by
`generateTurnaroundVideo` in src/services/geminiService.ts.

The poller (lines 274-296) submits a video-generation job, then loops:
  while (!operation.done) {
    await new Promise(resolve => setTimeout(resolve, 5000));
    operation = await ai.operations.getVideosOperation({operation});
  }
  const videoUri = operation.response?.generatedVideos?.[0]?.video?.uri;
  if (!videoUri) { throw new Error("No video URI in response"); }
The surrounding catch (lines 305-308) rethrows
  new Error(error.message || "Failed to generate video.").

The external API is abstracted as the value returned by the creation call
(`create`) and the sequence of values returned by successive status calls
(`fetch n` is the outcome of the n-th getVideosOperation call, 0-indexed).
The unbounded while loop is embedded as a fuel-indexed recursion; `none`
means the run did not finish within the given fuel.  Each run also records
a trace of suspension and status-fetch events, in order.
-/

/-- A JavaScript `Error` value: its `name` and `message` properties. -/
structure JsError where
  name : String
  message : String
  deriving DecidableEq, Repr

/-- The `video` object inside a generated-videos entry: `uri` may be absent. -/
structure Video where
  uri : Option String
  deriving DecidableEq, Repr

/-- One entry of `response.generatedVideos`: the `video` field may be absent. -/
structure GeneratedVideo where
  video : Option Video
  deriving DecidableEq, Repr

/-- The `response` object of a completed video operation. -/
structure VideoResponse where
  generatedVideos : Option (List GeneratedVideo)
  deriving DecidableEq, Repr

/-- A Veo long-running operation as observed by the poller: the `done` flag,
the optional `response` payload, and the optional `error` payload (which the
code at lines 288-296 never reads). -/
structure Operation where
  done : Bool
  response : Option VideoResponse
  error : Option String
  deriving DecidableEq, Repr

/-- Observable events of one poller run: a suspension of `ms` milliseconds
(the `setTimeout` at line 289) or the `i`-th status fetch (line 290). -/
inductive PollEvent where
  | suspend (ms : Nat)
  | fetchStatus (i : Nat)
  deriving DecidableEq, Repr

/-- Total milliseconds of suspension in a trace. -/
def suspendTotal : List PollEvent → Nat
  | [] => 0
  | PollEvent.suspend ms :: tr => ms + suspendTotal tr
  | PollEvent.fetchStatus _ :: tr => suspendTotal tr

/-- Number of suspensions in a trace. -/
def suspendCount : List PollEvent → Nat
  | [] => 0
  | PollEvent.suspend _ :: tr => 1 + suspendCount tr
  | PollEvent.fetchStatus _ :: tr => suspendCount tr

/-- Number of status fetches in a trace. -/
def fetchCount : List PollEvent → Nat
  | [] => 0
  | PollEvent.suspend _ :: tr => fetchCount tr
  | PollEvent.fetchStatus _ :: tr => 1 + fetchCount tr

/-- `operation.response?.generatedVideos?.[0]?.video?.uri` (line 293):
optional chaining, yielding `none` whenever any link is absent. -/
def rawVideoUri (op : Operation) : Option String :=
  match op.response with
  | none => none
  | some r =>
    match r.generatedVideos with
    | none => none
    | some [] => none
    | some (gv :: _) =>
      match gv.video with
      | none => none
      | some v => v.uri

/-- The result-handle test at line 294: `if (!videoUri)` treats both an
absent uri and the empty string as missing. -/
def extractVideoUri (op : Operation) : Option String :=
  match rawVideoUri op with
  | none => none
  | some uri => if uri = "" then none else some uri

/-- The error thrown at line 295 when a completed operation has no uri. -/
def missingResultError : JsError :=
  { name := "Error", message := "No video URI in response" }

/-- The while loop at lines 288-291, fuel-indexed.  `i` is the index of the
next status fetch.  Each iteration suspends 5000 ms, then fetches; a fetch
error aborts the loop with that error.  `none` means fuel ran out while the
job was still pending. -/
def pollLoop (fetch : Nat → Except JsError Operation) :
    Nat → Nat → Operation → Option (Except JsError Operation × List PollEvent)
  | fuel, i, op =>
    if op.done then some (.ok op, [])
    else
      match fuel with
      | 0 => none
      | fuel' + 1 =>
        match fetch i with
        | .error e => some (.error e, [PollEvent.suspend 5000, PollEvent.fetchStatus i])
        | .ok op' =>
          match pollLoop fetch fuel' (i + 1) op' with
          | none => none
          | some (r, tr) => some (r, PollEvent.suspend 5000 :: PollEvent.fetchStatus i :: tr)

/-- The poller proper (lines 274-296): take the creation call's outcome,
run the polling loop, then extract the video uri from the final operation,
failing with `missingResultError` when none is present. -/
def pollVideoOperation (create : Except JsError Operation)
    (fetch : Nat → Except JsError Operation) (fuel : Nat) :
    Option (Except JsError String × List PollEvent) :=
  match create with
  | .error e => some (.error e, [])
  | .ok op0 =>
    match pollLoop fetch fuel 0 op0 with
    | none => none
    | some (.error e, tr) => some (.error e, tr)
    | some (.ok opF, tr) =>
      match extractVideoUri opF with
      | none => some (.error missingResultError, tr)
      | some uri => some (.ok uri, tr)

/-- The catch block at lines 305-308:
`throw new Error(error.message || "Failed to generate video.")`. -/
def catchWrap (e : JsError) : JsError :=
  { name := "Error"
    message := if e.message = "" then "Failed to generate video." else e.message }

/-- The whole of `generateTurnaroundVideo` (lines 266-309): the poller,
the authenticated download of the uri (lines 298-303, abstracted as
`download`), and the catch block wrapping any thrown error. -/
def generateTurnaroundVideo (create : Except JsError Operation)
    (fetch : Nat → Except JsError Operation)
    (download : String → Except JsError String) (fuel : Nat) :
    Option (Except JsError String × List PollEvent) :=
  match pollVideoOperation create fetch fuel with
  | none => none
  | some (.error e, tr) => some (.error (catchWrap e), tr)
  | some (.ok uri, tr) =>
    match download uri with
    | .error e => some (.error (catchWrap e), tr)
    | .ok url => some (.ok url, tr)

/-- The canonical trace of `n` loop iterations starting at fetch index `i`:
each 5000 ms suspension immediately precedes its status fetch. -/
def loopTrace (i : Nat) : Nat → List PollEvent
  | 0 => []
  | n + 1 => PollEvent.suspend 5000 :: PollEvent.fetchStatus i :: loopTrace (i + 1) n

/-- Whether a status-call outcome ends the loop: an error, or a job
reporting done. -/
def isTerminal : Except JsError Operation → Bool
  | .error _ => true
  | .ok op => op.done

/-- Decidable form of "every suspension in the trace is exactly 5000 ms". -/
def allSuspends5000 (tr : List PollEvent) : Bool :=
  tr.all fun e =>
    match e with
    | PollEvent.suspend ms => ms == 5000
    | PollEvent.fetchStatus _ => true

/-- Decidable form of "every status fetch in the trace has index below
`n`" (no fetch beyond the `n`-th was performed). -/
def fetchIndicesBelow (n : Nat) (tr : List PollEvent) : Bool :=
  tr.all fun e =>
    match e with
    | PollEvent.suspend _ => true
    | PollEvent.fetchStatus j => decide (j < n)

/-! Section: Spec-modelled poller with timeout

`Modelled from the spec:` sections 3, 4.1 and 7 describe a
`pollUntilComplete(createJob, fetchStatus, config)` whose `PollConfig` may
carry a `timeoutMs`; the reference code in src/services/geminiService.ts has
no timeout (its loop at lines 288-291 polls indefinitely), so the
timeout-bearing poller exists only in the spec and is modelled here from the
spec's words: obtain an initial job; while not done, suspend `intervalMs`
then refetch; fail with `Timeout` once cumulative suspended time exceeds
`timeoutMs`, without further polling; on completion return the result
handle, or the job's reported error, or fail with `MissingResult`. -/

/-- Modelled from the spec: §3 PollConfig, `intervalMs` positive,
`timeoutMs` optional. -/
structure PollConfig where
  intervalMs : Nat
  timeoutMs : Option Nat
  deriving DecidableEq, Repr

/-- Modelled from the spec: §3 Job, with `done`, optional `result`, optional
`error`. -/
structure SpecJob where
  done : Bool
  result : Option String
  error : Option String
  deriving DecidableEq, Repr

/-- Modelled from the spec: §7 error kinds of the poller. -/
inductive SpecError where
  | creationFailed (e : JsError)
  | statusFetchFailed (e : JsError)
  | jobFailed (msg : String)
  | missingResult
  | timeout
  deriving DecidableEq, Repr

/-- Whether cumulative suspended time `elapsed` exceeds a configured
timeout. -/
def timeoutExceeded (cfg : PollConfig) (elapsed : Nat) : Bool :=
  match cfg.timeoutMs with
  | some t => decide (t < elapsed)
  | none => false

/-- Modelled from the spec: §4.1 step 2 and step 4.  While the job is not
done: suspend `intervalMs`; if the cumulative suspended time now exceeds
`timeoutMs`, fail with `Timeout` without further polling; otherwise refetch
status.  `elapsed` is the suspended time so far, `i` the next fetch index. -/
def specPollLoop (cfg : PollConfig) (fetch : Nat → Except JsError SpecJob) :
    Nat → Nat → Nat → SpecJob → Option (Except SpecError SpecJob × List PollEvent)
  | fuel, i, elapsed, job =>
    if job.done then some (.ok job, [])
    else
      match fuel with
      | 0 => none
      | fuel' + 1 =>
        if timeoutExceeded cfg (elapsed + cfg.intervalMs) then
          some (.error SpecError.timeout, [PollEvent.suspend cfg.intervalMs])
        else
          match fetch i with
          | .error e =>
            some (.error (SpecError.statusFetchFailed e),
              [PollEvent.suspend cfg.intervalMs, PollEvent.fetchStatus i])
          | .ok job' =>
            match specPollLoop cfg fetch fuel' (i + 1) (elapsed + cfg.intervalMs) job' with
            | none => none
            | some (r, tr) =>
              some (r, PollEvent.suspend cfg.intervalMs :: PollEvent.fetchStatus i :: tr)

/-- Modelled from the spec: §4.1 pollUntilComplete.  Obtain the initial job
from `create`; poll; once done return the result handle, else the job's
reported error, else fail with `MissingResult`. -/
def pollUntilComplete (cfg : PollConfig) (create : Except JsError SpecJob)
    (fetch : Nat → Except JsError SpecJob) (fuel : Nat) :
    Option (Except SpecError String × List PollEvent) :=
  match create with
  | .error e => some (.error (SpecError.creationFailed e), [])
  | .ok j0 =>
    match specPollLoop cfg fetch fuel 0 0 j0 with
    | none => none
    | some (.error se, tr) => some (.error se, tr)
    | some (.ok j, tr) =>
      match j.result with
      | some res => some (.ok res, tr)
      | none =>
        match j.error with
        | some m => some (.error (SpecError.jobFailed m), tr)
        | none => some (.error SpecError.missingResult, tr)

/-- A poll outcome that failed with `Timeout` after fewer than `n` status
fetches, with cumulative suspended time exceeding `t`. -/
def timesOutBefore (res : Option (Except SpecError String × List PollEvent))
    (t n : Nat) : Prop :=
  match res with
  | some (.error SpecError.timeout, tr) => fetchCount tr < n ∧ t < suspendTotal tr
  | _ => False
/-! Section: Trace bookkeeping lemmas -/

lemma loopTrace_suspendTotal : ∀ (n i : Nat), suspendTotal (loopTrace i n) = n * 5000 := by
  intro n
  induction n with
  | zero => intro i; rfl
  | succ n ih =>
    intro i
    simp only [loopTrace, suspendTotal, ih, Nat.succ_mul]
    omega

lemma loopTrace_suspendCount : ∀ (n i : Nat), suspendCount (loopTrace i n) = n := by
  intro n
  induction n with
  | zero => intro i; rfl
  | succ n ih =>
    intro i
    simp only [loopTrace, suspendCount, fetchCount, ih]
    omega

lemma loopTrace_fetchCount : ∀ (n i : Nat), fetchCount (loopTrace i n) = n := by
  intro n
  induction n with
  | zero => intro i; rfl
  | succ n ih =>
    intro i
    simp only [loopTrace, fetchCount, ih]
    omega

lemma loopTrace_mem_suspend :
    ∀ (n i ms : Nat), PollEvent.suspend ms ∈ loopTrace i n → ms = 5000 := by
  intro n
  induction n with
  | zero => intro i ms h; simp [loopTrace] at h
  | succ n ih =>
    intro i ms h
    simp only [loopTrace, List.mem_cons] at h
    rcases h with h | h | h
    · exact (PollEvent.suspend.injEq ms 5000).mp h
    · exact absurd h (by simp)
    · exact ih (i + 1) ms h

lemma loopTrace_mem_fetch :
    ∀ (n i j : Nat), PollEvent.fetchStatus j ∈ loopTrace i n → i ≤ j ∧ j < i + n := by
  intro n
  induction n with
  | zero => intro i j h; simp [loopTrace] at h
  | succ n ih =>
    intro i j h
    simp only [loopTrace, List.mem_cons] at h
    rcases h with h | h | h
    · exact absurd h (by simp)
    · have := (PollEvent.fetchStatus.injEq j i).mp h
      omega
    · have := ih (i + 1) j h
      omega

/-! Section: Loop behavior lemmas -/

lemma pollLoop_done (fetch : Nat → Except JsError Operation) (fuel i : Nat)
    (op : Operation) (h : op.done = true) :
    pollLoop fetch fuel i op = some (.ok op, []) := by
  cases fuel <;> simp [pollLoop, h]

lemma pollLoop_resolves (fetch : Nat → Except JsError Operation) :
    ∀ (m i : Nat) (op opF : Operation), op.done = false →
    (∀ j, j < m → ∃ o, fetch (i + j) = .ok o ∧ o.done = false) →
    fetch (i + m) = .ok opF → opF.done = true →
    ∀ fuel, m < fuel →
    pollLoop fetch fuel i op = some (.ok opF, loopTrace i (m + 1)) := by
  intro m
  induction m with
  | zero =>
    intro i op opF hop _ hF hdone fuel hfuel
    cases fuel with
    | zero => omega
    | succ f =>
      have hFi : fetch i = .ok opF := by simpa using hF
      simp [pollLoop, hop, hFi, pollLoop_done fetch f (i + 1) opF hdone, loopTrace]
  | succ m ih =>
    intro i op opF hop hpre hF hdone fuel hfuel
    cases fuel with
    | zero => omega
    | succ f =>
      obtain ⟨o0, ho0, ho0d⟩ := hpre 0 (by omega)
      have hFi : fetch i = .ok o0 := by simpa using ho0
      have hpre' : ∀ j, j < m → ∃ o, fetch ((i + 1) + j) = .ok o ∧ o.done = false := by
        intro j hj
        have h := hpre (j + 1) (by omega)
        have heq : i + (j + 1) = (i + 1) + j := by omega
        rwa [heq] at h
      have hF' : fetch ((i + 1) + m) = .ok opF := by
        have heq : i + (m + 1) = (i + 1) + m := by omega
        rwa [heq] at hF
      have hrec := ih (i + 1) o0 opF ho0d hpre' hF' hdone f (by omega)
      simp [pollLoop, hop, hFi, hrec, loopTrace]

lemma pollLoop_error (fetch : Nat → Except JsError Operation) :
    ∀ (m i : Nat) (op : Operation) (e : JsError), op.done = false →
    (∀ j, j < m → ∃ o, fetch (i + j) = .ok o ∧ o.done = false) →
    fetch (i + m) = .error e →
    ∀ fuel, m < fuel →
    pollLoop fetch fuel i op = some (.error e, loopTrace i (m + 1)) := by
  intro m
  induction m with
  | zero =>
    intro i op e hop _ hF fuel hfuel
    cases fuel with
    | zero => omega
    | succ f =>
      have hFi : fetch i = .error e := by simpa using hF
      simp [pollLoop, hop, hFi, loopTrace]
  | succ m ih =>
    intro i op e hop hpre hF fuel hfuel
    cases fuel with
    | zero => omega
    | succ f =>
      obtain ⟨o0, ho0, ho0d⟩ := hpre 0 (by omega)
      have hFi : fetch i = .ok o0 := by simpa using ho0
      have hpre' : ∀ j, j < m → ∃ o, fetch ((i + 1) + j) = .ok o ∧ o.done = false := by
        intro j hj
        have h := hpre (j + 1) (by omega)
        have heq : i + (j + 1) = (i + 1) + j := by omega
        rwa [heq] at h
      have hF' : fetch ((i + 1) + m) = .error e := by
        have heq : i + (m + 1) = (i + 1) + m := by omega
        rwa [heq] at hF
      have hrec := ih (i + 1) o0 e ho0d hpre' hF' f (by omega)
      simp [pollLoop, hop, hFi, hrec, loopTrace]

lemma pollLoop_never_done (fetch : Nat → Except JsError Operation)
    (hall : ∀ k, ∃ o, fetch k = .ok o ∧ o.done = false) :
    ∀ (fuel i : Nat) (op : Operation), op.done = false →
    pollLoop fetch fuel i op = none := by
  intro fuel
  induction fuel with
  | zero => intro i op h; simp [pollLoop, h]
  | succ f ih =>
    intro i op h
    obtain ⟨o, ho, hod⟩ := hall i
    simp [pollLoop, h, ho, ih (i + 1) o hod]

lemma pollLoop_pending_zero (fetch : Nat → Except JsError Operation) (i : Nat)
    (op : Operation) (h : op.done = false) : pollLoop fetch 0 i op = none := by
  simp [pollLoop, h]

lemma pollLoop_pending_succ (fetch : Nat → Except JsError Operation) (f i : Nat)
    (op : Operation) (h : op.done = false) :
    pollLoop fetch (f + 1) i op =
      match fetch i with
      | .error e => some (.error e, [PollEvent.suspend 5000, PollEvent.fetchStatus i])
      | .ok op' =>
        match pollLoop fetch f (i + 1) op' with
        | none => none
        | some (r, tr) =>
          some (r, PollEvent.suspend 5000 :: PollEvent.fetchStatus i :: tr) := by
  rw [pollLoop]
  simp [h]

lemma pollLoop_trace_shape (fetch : Nat → Except JsError Operation) :
    ∀ (fuel i : Nat) (op : Operation) (r : Except JsError Operation)
      (tr : List PollEvent), pollLoop fetch fuel i op = some (r, tr) →
    ∃ n, tr = loopTrace i n := by
  intro fuel
  induction fuel with
  | zero =>
    intro i op r tr h
    by_cases hop : op.done = true
    · rw [pollLoop_done fetch 0 i op hop] at h
      exact ⟨0, by simp_all [loopTrace]⟩
    · rw [pollLoop_pending_zero fetch i op (by simpa using hop)] at h
      exact absurd h (by simp)
  | succ f ih =>
    intro i op r tr h
    by_cases hop : op.done = true
    · rw [pollLoop_done fetch (f + 1) i op hop] at h
      exact ⟨0, by simp_all [loopTrace]⟩
    · rw [pollLoop_pending_succ fetch f i op (by simpa using hop)] at h
      cases hfi : fetch i with
      | error e =>
        rw [hfi] at h
        simp only [Option.some.injEq, Prod.mk.injEq] at h
        exact ⟨1, by simp [← h.2, loopTrace]⟩
      | ok op' =>
        rw [hfi] at h
        cases hrec : pollLoop fetch f (i + 1) op' with
        | none =>
          simp only [hrec] at h
          exact absurd h (by simp)
        | some p =>
          obtain ⟨r', tr'⟩ := p
          simp only [hrec, Option.some.injEq, Prod.mk.injEq] at h
          obtain ⟨n, hn⟩ := ih (i + 1) op' r' tr' hrec
          refine ⟨n + 1, ?_⟩
          rw [← h.2, hn]
          rfl

lemma pollVideoOperation_trace_shape (create : Except JsError Operation)
    (fetch : Nat → Except JsError Operation) (fuel : Nat)
    (r : Except JsError String) (tr : List PollEvent)
    (h : pollVideoOperation create fetch fuel = some (r, tr)) :
    ∃ n, tr = loopTrace 0 n := by
  revert h
  cases create with
  | error e =>
    intro h
    simp only [pollVideoOperation, Option.some.injEq, Prod.mk.injEq] at h
    exact ⟨0, by simp [← h.2, loopTrace]⟩
  | ok op0 =>
    intro h
    simp only [pollVideoOperation] at h
    cases hloop : pollLoop fetch fuel 0 op0 with
    | none =>
      simp only [hloop] at h
      exact absurd h (by simp)
    | some p =>
      obtain ⟨rl, trl⟩ := p
      obtain ⟨n, hn⟩ := pollLoop_trace_shape fetch fuel 0 op0 rl trl hloop
      refine ⟨n, ?_⟩
      rw [← hn]
      revert h
      cases rl with
      | error e =>
        intro h
        simp only [hloop, Option.some.injEq, Prod.mk.injEq] at h
        exact h.2.symm
      | ok opF =>
        intro h
        simp only [hloop] at h
        cases hext : extractVideoUri opF with
        | none =>
          simp only [hext, Option.some.injEq, Prod.mk.injEq] at h
          exact h.2.symm
        | some uri =>
          simp only [hext, Option.some.injEq, Prod.mk.injEq] at h
          exact h.2.symm

lemma loopTrace_allSuspends5000 : ∀ (n i : Nat), allSuspends5000 (loopTrace i n) = true := by
  intro n
  induction n with
  | zero => intro i; rfl
  | succ n ih =>
    intro i
    have h := ih (i + 1)
    simp only [allSuspends5000, List.all_eq_true] at h ⊢
    intro x hx
    simp only [loopTrace, List.mem_cons] at hx
    rcases hx with rfl | rfl | hx
    · decide
    · rfl
    · exact h x hx


lemma specPollLoop_job_done (cfg : PollConfig) (fetch : Nat → Except JsError SpecJob)
    (fuel i elapsed : Nat) (job : SpecJob) (h : job.done = true) :
    specPollLoop cfg fetch fuel i elapsed job = some (.ok job, []) := by
  cases fuel <;> simp [specPollLoop, h]

lemma nat_lt_of_mul_lt_mul {a b c : Nat} (h : a * c < b * c) : a < b := by
  by_contra hcon
  push_neg at hcon
  exact absurd h (Nat.not_lt.mpr (mul_le_mul_right' hcon c))

lemma specPollLoop_timeout (cfg : PollConfig) (t N : Nat)
    (fetch : Nat → Except JsError SpecJob)
    (ht : cfg.timeoutMs = some t) (htN : t < N * cfg.intervalMs)
    (hpre : ∀ i, i < N - 1 → ∃ j, fetch i = .ok j ∧ j.done = false) :
    ∀ (fuel i : Nat) (job : SpecJob), job.done = false → N - i ≤ fuel →
      i * cfg.intervalMs ≤ t →
    ∃ tr, specPollLoop cfg fetch fuel i (i * cfg.intervalMs) job =
        some (.error SpecError.timeout, tr) ∧
      i + fetchCount tr < N ∧ t < i * cfg.intervalMs + suspendTotal tr := by
  intro fuel
  induction fuel with
  | zero =>
    intro i job hjob hfuel helapsed
    exfalso
    have hiN : i < N := nat_lt_of_mul_lt_mul (lt_of_le_of_lt helapsed htN)
    omega
  | succ f ih =>
    intro i job hjob hfuel helapsed
    have hiN : i < N := nat_lt_of_mul_lt_mul (lt_of_le_of_lt helapsed htN)
    have hsm : (i + 1) * cfg.intervalMs = i * cfg.intervalMs + cfg.intervalMs :=
      Nat.succ_mul i cfg.intervalMs
    by_cases hto : t < (i + 1) * cfg.intervalMs
    · have hcond : timeoutExceeded cfg (i * cfg.intervalMs + cfg.intervalMs) = true := by
        simp only [timeoutExceeded, ht, decide_eq_true_eq]
        omega
      refine ⟨[PollEvent.suspend cfg.intervalMs], ?_, ?_, ?_⟩
      · rw [specPollLoop]
        simp [hjob, hcond]
      · simp only [fetchCount]
        omega
      · simp only [suspendTotal]
        omega
    · push_neg at hto
      have hi1N : i + 1 < N := nat_lt_of_mul_lt_mul (lt_of_le_of_lt hto htN)
      obtain ⟨j', hj', hj'done⟩ := hpre i (by omega)
      obtain ⟨tr, htr, hcnt, hst⟩ := ih (i + 1) j' hj'done (by omega) hto
      have hcond : timeoutExceeded cfg (i * cfg.intervalMs + cfg.intervalMs) = false := by
        simp only [timeoutExceeded, ht, decide_eq_false_iff_not]
        omega
      refine ⟨PollEvent.suspend cfg.intervalMs :: PollEvent.fetchStatus i :: tr, ?_, ?_, ?_⟩
      · rw [specPollLoop]
        rw [hsm] at htr
        simp [hjob, hcond, hj', htr]
      · simp only [fetchCount]
        omega
      · simp only [suspendTotal]
        omega

lemma loopTrace_fetchIndicesBelow :
    ∀ (n i m : Nat), i + n ≤ m → fetchIndicesBelow m (loopTrace i n) = true := by
  intro n
  induction n with
  | zero => intro i m _; rfl
  | succ n ih =>
    intro i m h
    have hrec := ih (i + 1) m (by omega)
    simp only [fetchIndicesBelow, List.all_eq_true] at hrec ⊢
    intro x hx
    simp only [loopTrace, List.mem_cons] at hx
    rcases hx with rfl | rfl | hx
    · rfl
    · simp only [decide_eq_true_eq]
      omega
    · exact hrec x hx


lemma pollVideoOperation_fetch_error
    (fetch : Nat → Except JsError Operation) (op0 : Operation) (k : Nat)
    (e : JsError) (fuel : Nat)
    (h0 : op0.done = false)
    (hpre : ∀ j, j < k → ∃ o, fetch j = .ok o ∧ o.done = false)
    (hF : fetch k = .error e) (hfuel : k < fuel) :
    pollVideoOperation (.ok op0) fetch fuel = some (.error e, loopTrace 0 (k + 1)) := by
  have hpre' : ∀ j, j < k → ∃ o, fetch (0 + j) = .ok o ∧ o.done = false := by
    intro j hj
    simpa using hpre j hj
  have hF' : fetch (0 + k) = .error e := by simpa using hF
  have hloop := pollLoop_error fetch k 0 op0 e h0 hpre' hF' fuel hfuel
  simp [pollVideoOperation, hloop]

/-! Section: Claim theorems -/

/-- Claim C1: when the initial job is pending and the job first reports
`done = true` on the N-th status fetch (N at least 1, fetches 0-indexed so
the N-th is index N-1), the poller performs exactly N suspensions of
5000 ms each — each suspension immediately preceding its status fetch, as
the trace `loopTrace 0 N` interleaves them — for 5000·N ms of cumulative
suspension, and resolves with the fetched job's result handle. -/
theorem poller_n_suspensions_before_resolve
    (fetch : Nat → Except JsError Operation) (op0 opF : Operation)
    (uri : String) (N fuel : Nat)
    (hN : 1 ≤ N)
    (h0 : op0.done = false)
    (hpre : ∀ j, j < N - 1 → ∃ o, fetch j = .ok o ∧ o.done = false)
    (hF : fetch (N - 1) = .ok opF)
    (hdone : opF.done = true)
    (huri : extractVideoUri opF = some uri)
    (hfuel : N ≤ fuel) :
    pollVideoOperation (.ok op0) fetch fuel = some (.ok uri, loopTrace 0 N) ∧
    suspendCount (loopTrace 0 N) = N ∧
    suspendTotal (loopTrace 0 N) = N * 5000 := by
  obtain ⟨m, rfl⟩ : ∃ m, N = m + 1 := ⟨N - 1, by omega⟩
  have hpre' : ∀ j, j < m → ∃ o, fetch (0 + j) = .ok o ∧ o.done = false := by
    intro j hj
    simpa using hpre j (by omega)
  have hF' : fetch (0 + m) = .ok opF := by simpa using hF
  have hloop := pollLoop_resolves fetch m 0 op0 opF h0 hpre' hF' hdone fuel (by omega)
  exact ⟨by simp [pollVideoOperation, hloop, huri],
    loopTrace_suspendCount (m + 1) 0, loopTrace_suspendTotal (m + 1) 0⟩

/-- Witness for C1, the scenario from the spec: creation returns a pending
job, the first status fetch is still pending, the second reports done with
result "X", so the poller suspends twice (2 × 5000 = 10000 ms) and resolves
to "X". -/
theorem poller_n_suspensions_before_resolve_witness :
    pollVideoOperation (.ok ⟨false, none, none⟩)
        (fun j => if j = 0 then .ok ⟨false, none, none⟩
          else .ok ⟨true, some ⟨some [⟨some ⟨some "X"⟩⟩]⟩, none⟩) 2
      = some (.ok "X", loopTrace 0 2) ∧
    suspendCount (loopTrace 0 2) = 2 ∧
    suspendTotal (loopTrace 0 2) = 2 * 5000 := by
  refine poller_n_suspensions_before_resolve
    (fun j => if j = 0 then .ok ⟨false, none, none⟩
      else .ok ⟨true, some ⟨some [⟨some ⟨some "X"⟩⟩]⟩, none⟩)
    ⟨false, none, none⟩ ⟨true, some ⟨some [⟨some ⟨some "X"⟩⟩]⟩, none⟩
    "X" 2 2 (by omega) rfl ?_ rfl rfl rfl (by omega)
  intro j hj
  have hj0 : j = 0 := by omega
  subst hj0
  exact ⟨⟨false, none, none⟩, rfl, rfl⟩

/-- Claim C2: as soon as a status fetch (the k-th, with all earlier fetches
pending) returns a job with `done = true` carrying a result handle `uri`,
the poller resolves with exactly that handle; it performs exactly k+1
status fetches and none with a higher index. -/
theorem poller_resolves_with_first_done_result
    (fetch : Nat → Except JsError Operation) (op0 opF : Operation)
    (uri : String) (k fuel : Nat)
    (h0 : op0.done = false)
    (hpre : ∀ j, j < k → ∃ o, fetch j = .ok o ∧ o.done = false)
    (hF : fetch k = .ok opF)
    (hdone : opF.done = true)
    (huri : extractVideoUri opF = some uri)
    (hfuel : k < fuel) :
    pollVideoOperation (.ok op0) fetch fuel = some (.ok uri, loopTrace 0 (k + 1)) ∧
    fetchCount (loopTrace 0 (k + 1)) = k + 1 ∧
    fetchIndicesBelow (k + 1) (loopTrace 0 (k + 1)) = true := by
  have hpre' : ∀ j, j < k → ∃ o, fetch (0 + j) = .ok o ∧ o.done = false := by
    intro j hj
    simpa using hpre j hj
  have hF' : fetch (0 + k) = .ok opF := by simpa using hF
  have hloop := pollLoop_resolves fetch k 0 op0 opF h0 hpre' hF' hdone fuel hfuel
  exact ⟨by simp [pollVideoOperation, hloop, huri],
    loopTrace_fetchCount (k + 1) 0,
    loopTrace_fetchIndicesBelow (k + 1) 0 (k + 1) (by omega)⟩

/-- Witness for C2: the very first status fetch reports done with result
handle "r"; the poller resolves to "r" after exactly one fetch. -/
theorem poller_resolves_with_first_done_result_witness :
    pollVideoOperation (.ok ⟨false, none, none⟩)
        (fun _ => .ok ⟨true, some ⟨some [⟨some ⟨some "r"⟩⟩]⟩, none⟩) 1
      = some (.ok "r", loopTrace 0 1) ∧
    fetchCount (loopTrace 0 1) = 1 ∧
    fetchIndicesBelow 1 (loopTrace 0 1) = true := by
  exact poller_resolves_with_first_done_result
    (fun _ => .ok ⟨true, some ⟨some [⟨some ⟨some "r"⟩⟩]⟩, none⟩)
    ⟨false, none, none⟩ ⟨true, some ⟨some [⟨some ⟨some "r"⟩⟩]⟩, none⟩
    "r" 0 1 rfl (fun j hj => absurd hj (by omega)) rfl rfl rfl (by omega)

/-- Claim C3: if the job first reports `done = true` on the k-th status
fetch but carries no result handle and no error payload, the poller fails
with the MissingResult error "No video URI in response" instead of
resolving or polling further (the trace ends at fetch k). -/
theorem poller_missing_result_on_done_without_handle
    (fetch : Nat → Except JsError Operation) (op0 opF : Operation)
    (k fuel : Nat)
    (h0 : op0.done = false)
    (hpre : ∀ j, j < k → ∃ o, fetch j = .ok o ∧ o.done = false)
    (hF : fetch k = .ok opF)
    (hdone : opF.done = true)
    (hnores : rawVideoUri opF = none)
    (hnoerr : opF.error = none)
    (hfuel : k < fuel) :
    pollVideoOperation (.ok op0) fetch fuel
      = some (.error missingResultError, loopTrace 0 (k + 1)) ∧
    missingResultError.message = "No video URI in response" := by
  have hpre' : ∀ j, j < k → ∃ o, fetch (0 + j) = .ok o ∧ o.done = false := by
    intro j hj
    simpa using hpre j hj
  have hF' : fetch (0 + k) = .ok opF := by simpa using hF
  have hloop := pollLoop_resolves fetch k 0 op0 opF h0 hpre' hF' hdone fuel hfuel
  have hext : extractVideoUri opF = none := by simp [extractVideoUri, hnores]
  exact ⟨by simp [pollVideoOperation, hloop, hext], rfl⟩

/-- Witness for C3: the first status fetch reports done with neither a
response payload nor an error payload; the poller fails with
MissingResult. -/
theorem poller_missing_result_on_done_without_handle_witness :
    pollVideoOperation (.ok ⟨false, none, none⟩)
        (fun _ => .ok ⟨true, none, none⟩) 1
      = some (.error missingResultError, loopTrace 0 1) ∧
    missingResultError.message = "No video URI in response" := by
  exact poller_missing_result_on_done_without_handle
    (fun _ => .ok ⟨true, none, none⟩) ⟨false, none, none⟩ ⟨true, none, none⟩
    0 1 rfl (fun j hj => absurd hj (by omega)) rfl rfl rfl rfl (by omega)

/-- Claim C4: if the creation call raises an error the poller fails
immediately with that error before any suspension or fetch; if the k-th
status fetch raises an error (all earlier fetches pending), the poller
fails immediately with that error, performs exactly k+1 status fetches —
none after the failing one — and never retries.  (These are the outcomes of
the try body; the catch at lines 305-308 then rewraps the message, see the
C8 theorems.) -/
theorem poller_fails_fast_on_api_error
    (create : Except JsError Operation) (fetch : Nat → Except JsError Operation) :
    (∀ (e : JsError) (fuel : Nat), create = .error e →
      pollVideoOperation create fetch fuel = some (.error e, [])) ∧
    (∀ (op0 : Operation) (k : Nat) (e : JsError) (fuel : Nat),
      create = .ok op0 → op0.done = false →
      (∀ j, j < k → ∃ o, fetch j = .ok o ∧ o.done = false) →
      fetch k = .error e → k < fuel →
      pollVideoOperation create fetch fuel = some (.error e, loopTrace 0 (k + 1)) ∧
      fetchCount (loopTrace 0 (k + 1)) = k + 1 ∧
      fetchIndicesBelow (k + 1) (loopTrace 0 (k + 1)) = true) := by
  constructor
  · intro e fuel hc
    subst hc
    rfl
  · intro op0 k e fuel hc h0 hpre hF hfuel
    subst hc
    exact ⟨pollVideoOperation_fetch_error fetch op0 k e fuel h0 hpre hF hfuel,
      loopTrace_fetchCount (k + 1) 0,
      loopTrace_fetchIndicesBelow (k + 1) 0 (k + 1) (by omega)⟩

/-- Witness for C4: a failing creation call, and a run whose second status
fetch fails after one pending fetch. -/
theorem poller_fails_fast_on_api_error_witness :
    pollVideoOperation (.error ⟨"ApiError", "quota"⟩)
        (fun _ => .ok ⟨false, none, none⟩) 3 = some (.error ⟨"ApiError", "quota"⟩, []) ∧
    (pollVideoOperation (.ok ⟨false, none, none⟩)
        (fun j => if j = 0 then .ok ⟨false, none, none⟩ else .error ⟨"NetError", "down"⟩) 9
      = some (.error ⟨"NetError", "down"⟩, loopTrace 0 2) ∧
      fetchCount (loopTrace 0 2) = 2 ∧
      fetchIndicesBelow 2 (loopTrace 0 2) = true) := by
  constructor
  · exact (poller_fails_fast_on_api_error (.error ⟨"ApiError", "quota"⟩)
      (fun _ => .ok ⟨false, none, none⟩)).1 ⟨"ApiError", "quota"⟩ 3 rfl
  · refine (poller_fails_fast_on_api_error (.ok ⟨false, none, none⟩)
      (fun j => if j = 0 then .ok ⟨false, none, none⟩ else .error ⟨"NetError", "down"⟩)).2
      ⟨false, none, none⟩ 1 ⟨"NetError", "down"⟩ 9 rfl rfl ?_ rfl (by omega)
    intro j hj
    have hj0 : j = 0 := by omega
    subst hj0
    exact ⟨⟨false, none, none⟩, rfl, rfl⟩

/-- Claim C7: every suspension in any run of the poller lasts exactly
5000 ms — the interval is the fixed constant 5000, identical on every
iteration and across all poll operations (any `create`, `fetch`, fuel). -/
theorem poller_interval_is_5000ms
    (create : Except JsError Operation) (fetch : Nat → Except JsError Operation)
    (fuel : Nat) (r : Except JsError String) (tr : List PollEvent)
    (h : pollVideoOperation create fetch fuel = some (r, tr)) :
    allSuspends5000 tr = true := by
  obtain ⟨n, hn⟩ := pollVideoOperation_trace_shape create fetch fuel r tr h
  rw [hn]
  exact loopTrace_allSuspends5000 n 0

/-- Witness for C7: a run with one suspension; it is 5000 ms. -/
theorem poller_interval_is_5000ms_witness :
    pollVideoOperation (.ok ⟨false, none, none⟩)
        (fun _ => .ok ⟨true, none, none⟩) 1
      = some (.error missingResultError, loopTrace 0 1) ∧
    allSuspends5000 (loopTrace 0 1) = true := by
  refine ⟨rfl, ?_⟩
  exact poller_interval_is_5000ms (.ok ⟨false, none, none⟩)
    (fun _ => .ok ⟨true, none, none⟩) 1 (.error missingResultError) (loopTrace 0 1) rfl

/-- Claim C9: if the job returned by the creation call already has
`done = true`, the poller performs zero suspensions and zero status fetches
(empty trace, for any fetch behavior and any fuel, even 0) and goes
straight to result extraction: it resolves with the extracted handle if one
is present and fails with MissingResult otherwise. -/
theorem poller_initial_done_skips_polling
    (fetch : Nat → Except JsError Operation) (op0 : Operation) (fuel : Nat)
    (h : op0.done = true) :
    pollVideoOperation (.ok op0) fetch fuel
      = some ((match extractVideoUri op0 with
          | some uri => Except.ok uri
          | none => Except.error missingResultError), []) ∧
    suspendCount ([] : List PollEvent) = 0 ∧
    fetchCount ([] : List PollEvent) = 0 := by
  refine ⟨?_, rfl, rfl⟩
  rw [pollVideoOperation, pollLoop_done fetch fuel 0 op0 h]
  cases hext : extractVideoUri op0 <;> simp [hext]

/-- Witness for C9: an already-done initial job with result handle "u"
resolves immediately with an empty trace. -/
theorem poller_initial_done_skips_polling_witness :
    pollVideoOperation (.ok ⟨true, some ⟨some [⟨some ⟨some "u"⟩⟩]⟩, none⟩)
        (fun _ => .error ⟨"NeverCalled", "x"⟩) 0
      = some (.ok "u", []) ∧
    suspendCount ([] : List PollEvent) = 0 ∧
    fetchCount ([] : List PollEvent) = 0 := by
  have h := poller_initial_done_skips_polling
    (fun _ => .error ⟨"NeverCalled", "x"⟩)
    ⟨true, some ⟨some [⟨some ⟨some "u"⟩⟩]⟩, none⟩ 0 rfl
  simpa using h

/-- Claim C10: result extraction from a completed operation is total over
all partial response shapes: a missing response, a missing or empty
generated-videos list, or a first entry without a video or without a uri
all yield the same MissingResult failure with message
"No video URI in response" — never a crash on the missing field. -/
theorem extraction_total_on_partial_response
    (fetch : Nat → Except JsError Operation) (op0 : Operation) (fuel : Nat)
    (hdone : op0.done = true)
    (hshape : op0.response = none ∨
      (∃ r, op0.response = some r ∧
        (r.generatedVideos = none ∨ r.generatedVideos = some [])) ∨
      (∃ r gv rest, op0.response = some r ∧ r.generatedVideos = some (gv :: rest) ∧
        (gv.video = none ∨ ∃ v, gv.video = some v ∧ v.uri = none))) :
    rawVideoUri op0 = none ∧
    pollVideoOperation (.ok op0) fetch fuel = some (.error missingResultError, []) ∧
    missingResultError.message = "No video URI in response" := by
  have hraw : rawVideoUri op0 = none := by
    rcases hshape with h | ⟨r, hr, h | h⟩ | ⟨r, gv, rest, hr, hgv, h | ⟨v, hv, hu⟩⟩ <;>
      simp [rawVideoUri, *]
  have hext : extractVideoUri op0 = none := by simp [extractVideoUri, hraw]
  refine ⟨hraw, ?_, rfl⟩
  rw [pollVideoOperation, pollLoop_done fetch fuel 0 op0 hdone]
  simp [hext]

/-- Witness for C10: a completed operation whose generated-videos list is
empty fails with the MissingResult error. -/
theorem extraction_total_on_partial_response_witness :
    rawVideoUri ⟨true, some ⟨some []⟩, none⟩ = none ∧
    pollVideoOperation (.ok ⟨true, some ⟨some []⟩, none⟩)
        (fun _ => .ok ⟨true, some ⟨some []⟩, none⟩) 4
      = some (.error missingResultError, []) ∧
    missingResultError.message = "No video URI in response" := by
  exact extraction_total_on_partial_response
    (fun _ => .ok ⟨true, some ⟨some []⟩, none⟩) ⟨true, some ⟨some []⟩, none⟩ 4 rfl
    (Or.inr (Or.inl ⟨⟨some []⟩, rfl, Or.inr rfl⟩))

/-- Claim C5 (settled against the spec-modelled poller, since the reference
code has no timeout): with a configured `timeoutMs` of `t` smaller than
N × `intervalMs`, for a job that would first complete on the N-th status
fetch, `pollUntilComplete` fails with a `Timeout` error once cumulative
suspended time exceeds `t`, having performed fewer than N status fetches
and no further polling. -/
theorem spec_poller_times_out_before_nth_fetch
    (cfg : PollConfig) (t N fuel : Nat) (j0 jN : SpecJob)
    (fetch : Nat → Except JsError SpecJob)
    (hpos : 0 < cfg.intervalMs)
    (ht : cfg.timeoutMs = some t)
    (hN : 1 ≤ N)
    (htN : t < N * cfg.intervalMs)
    (h0 : j0.done = false)
    (hpre : ∀ i, i < N - 1 → ∃ j, fetch i = .ok j ∧ j.done = false)
    (hNdone : fetch (N - 1) = .ok jN)
    (hjN : jN.done = true)
    (hfuel : N ≤ fuel) :
    timesOutBefore (pollUntilComplete cfg (.ok j0) fetch fuel) t N := by
  obtain ⟨tr, htr, hcnt, hst⟩ :=
    specPollLoop_timeout cfg t N fetch ht htN hpre fuel 0 j0 h0 (by omega) (by simp)
  rw [Nat.zero_mul] at htr hst
  have heq : pollUntilComplete cfg (.ok j0) fetch fuel
      = some (.error SpecError.timeout, tr) := by
    simp [pollUntilComplete, htr]
  rw [heq]
  simp only [timesOutBefore]
  exact ⟨by omega, by omega⟩

/-- Witness for C5: interval 5000 ms, timeout 7000 ms, a job that would
complete on the 2nd fetch (7000 < 2 × 5000): the poller times out after one
fetch, with 10000 ms suspended. -/
theorem spec_poller_times_out_before_nth_fetch_witness :
    timesOutBefore
      (pollUntilComplete ⟨5000, some 7000⟩ (.ok ⟨false, none, none⟩)
        (fun i => if i = 0 then .ok ⟨false, none, none⟩
          else .ok ⟨true, some "R", none⟩) 2)
      7000 2 := by
  refine spec_poller_times_out_before_nth_fetch ⟨5000, some 7000⟩ 7000 2 2
    ⟨false, none, none⟩ ⟨true, some "R", none⟩
    (fun i => if i = 0 then .ok ⟨false, none, none⟩
      else .ok ⟨true, some "R", none⟩)
    (by decide) rfl (by decide) (by decide) rfl ?_ rfl rfl (by decide)
  intro i hi
  have hi0 : i = 0 := by omega
  subst hi0
  exact ⟨⟨false, none, none⟩, rfl, rfl⟩

/-- Claim C6: the poller terminates whenever some status-call outcome is
terminal (an error, or a job reporting done) — any fuel beyond that index
yields a finished run — while a run whose creation returns a pending job
and whose every status fetch returns a pending job without error never
terminates: it yields `none` (still looping) for every amount of fuel. -/
theorem poller_termination_characterization
    (create : Except JsError Operation) (fetch : Nat → Except JsError Operation)
    (fuel : Nat) :
    (∀ k, isTerminal (fetch k) = true → k < fuel →
      (pollVideoOperation create fetch fuel).isSome = true) ∧
    (∀ op0, create = .ok op0 → op0.done = false →
      (∀ j, isTerminal (fetch j) = false) →
      pollVideoOperation create fetch fuel = none) := by
  constructor
  · intro k hk hfuel
    cases create with
    | error e => rfl
    | ok op0 =>
      by_cases h0 : op0.done = true
      · rw [pollVideoOperation, pollLoop_done fetch fuel 0 op0 h0]
        cases hext : extractVideoUri op0 <;> simp [hext]
      · have h0' : op0.done = false := by simpa using h0
        have hex : ∃ j, isTerminal (fetch j) = true := ⟨k, hk⟩
        set k0 := Nat.find hex with hk0def
        have hk0 : isTerminal (fetch k0) = true := Nat.find_spec hex
        have hk0le : k0 ≤ k := Nat.find_min' hex hk
        have hmin : ∀ j, j < k0 → ∃ o, fetch j = .ok o ∧ o.done = false := by
          intro j hj
          have hnt : ¬ isTerminal (fetch j) = true := Nat.find_min hex hj
          cases hfj : fetch j with
          | error e => exact absurd (by simp [isTerminal, hfj]) hnt
          | ok o =>
            refine ⟨o, rfl, ?_⟩
            by_contra hcon
            exact hnt (by simp [isTerminal, hfj, Bool.of_not_eq_false hcon])
        have hmin' : ∀ j, j < k0 → ∃ o, fetch (0 + j) = .ok o ∧ o.done = false := by
          intro j hj
          simpa using hmin j hj
        cases hfk : fetch k0 with
        | error e =>
          have hloop := pollLoop_error fetch k0 0 op0 e h0' hmin'
            (by simpa using hfk) fuel (by omega)
          simp [pollVideoOperation, hloop]
        | ok oF =>
          have hoF : oF.done = true := by
            have := hk0
            rwa [hfk] at this
          have hloop := pollLoop_resolves fetch k0 0 op0 oF h0' hmin'
            (by simpa using hfk) hoF fuel (by omega)
          rw [pollVideoOperation, hloop]
          cases hext : extractVideoUri oF <;> simp [hext]
  · intro op0 hc h0 hall
    subst hc
    have hall' : ∀ j, ∃ o, fetch j = .ok o ∧ o.done = false := by
      intro j
      have hnt := hall j
      cases hfj : fetch j with
      | error e => rw [hfj] at hnt; exact absurd hnt (by simp [isTerminal])
      | ok o =>
        refine ⟨o, rfl, ?_⟩
        rw [hfj] at hnt
        simpa [isTerminal] using hnt
    rw [pollVideoOperation, pollLoop_never_done fetch hall' fuel 0 op0 h0]

/-- Witness for C6: a run whose first fetch reports done finishes with
fuel 1; a run whose creation and every fetch stay pending yields `none`
at fuel 7 (and, by the theorem, at every fuel). -/
theorem poller_termination_characterization_witness :
    (pollVideoOperation (.ok ⟨false, none, none⟩)
        (fun _ => .ok ⟨true, none, none⟩) 1).isSome = true ∧
    pollVideoOperation (.ok ⟨false, none, none⟩)
        (fun _ => .ok ⟨false, none, none⟩) 7 = none := by
  constructor
  · exact (poller_termination_characterization (.ok ⟨false, none, none⟩)
      (fun _ => .ok ⟨true, none, none⟩) 1).1 0 rfl (by omega)
  · exact (poller_termination_characterization (.ok ⟨false, none, none⟩)
      (fun _ => .ok ⟨false, none, none⟩) 7).2 ⟨false, none, none⟩ rfl rfl
      (fun j => rfl)

/-- Counterexample to C8 as stated: an error arising in the creation call
as the value ⟨"ApiError", ""⟩ is surfaced to the caller as
⟨"Error", "Failed to generate video."⟩ — not the identical error value
(both its name and its message were changed by the catch block at lines
305-308). -/
theorem error_surfaced_modified_counterexample :
    generateTurnaroundVideo (.error ⟨"ApiError", ""⟩)
        (fun _ => .error ⟨"ApiError", ""⟩) (fun _ => .error ⟨"ApiError", ""⟩) 0
      = some (.error ⟨"Error", "Failed to generate video."⟩, []) ∧
    (⟨"Error", "Failed to generate video."⟩ : JsError) ≠ ⟨"ApiError", ""⟩ := by
  exact ⟨rfl, by decide⟩

/-- Claim C8 as amended: every error is surfaced to the caller with no
automatic retry (creation errors before any fetch, a fetch error right
after the failing fetch with no later fetch), but rewrapped by the catch
block into a fresh Error named "Error" whose message is the original
error's message when that message is non-empty and the fixed message
"Failed to generate video." when it is empty. -/
theorem errors_surfaced_rewrapped_no_retry
    (create : Except JsError Operation) (fetch : Nat → Except JsError Operation)
    (download : String → Except JsError String) :
    (∀ (e : JsError) (fuel : Nat), create = .error e →
      generateTurnaroundVideo create fetch download fuel
        = some (.error (catchWrap e), [])) ∧
    (∀ (op0 : Operation) (k : Nat) (e : JsError) (fuel : Nat),
      create = .ok op0 → op0.done = false →
      (∀ j, j < k → ∃ o, fetch j = .ok o ∧ o.done = false) →
      fetch k = .error e → k < fuel →
      generateTurnaroundVideo create fetch download fuel
        = some (.error (catchWrap e), loopTrace 0 (k + 1)) ∧
      fetchIndicesBelow (k + 1) (loopTrace 0 (k + 1)) = true) ∧
    (∀ e : JsError, e.message ≠ "" → (catchWrap e).message = e.message) ∧
    (∀ e : JsError, e.message = "" →
      catchWrap e = ⟨"Error", "Failed to generate video."⟩) ∧
    (∀ e : JsError, (catchWrap e).name = "Error") := by
  refine ⟨?_, ?_, ?_, ?_, fun e => rfl⟩
  · intro e fuel hc
    subst hc
    rfl
  · intro op0 k e fuel hc h0 hpre hF hfuel
    subst hc
    have h := pollVideoOperation_fetch_error fetch op0 k e fuel h0 hpre hF hfuel
    exact ⟨by simp [generateTurnaroundVideo, h],
      loopTrace_fetchIndicesBelow (k + 1) 0 (k + 1) (by omega)⟩
  · intro e h
    simp [catchWrap, h]
  · intro e h
    simp [catchWrap, h]

/-- Witness for the amended C8: a fetch error with non-empty message "down"
is surfaced (rewrapped) with message "down" after the failing fetch. -/
theorem errors_surfaced_rewrapped_no_retry_witness :
    generateTurnaroundVideo (.ok ⟨false, none, none⟩)
        (fun _ => .error ⟨"NetError", "down"⟩) (fun s => .ok s) 5
      = some (.error (catchWrap ⟨"NetError", "down"⟩), loopTrace 0 1) ∧
    fetchIndicesBelow 1 (loopTrace 0 1) = true ∧
    (catchWrap ⟨"NetError", "down"⟩).message = "down" ∧
    (catchWrap ⟨"NetError", "down"⟩).name = "Error" := by
  have h := errors_surfaced_rewrapped_no_retry (.ok ⟨false, none, none⟩)
    (fun _ => .error ⟨"NetError", "down"⟩) (fun s => .ok s)
  obtain ⟨hmain, hbelow⟩ := h.2.1 ⟨false, none, none⟩ 0 ⟨"NetError", "down"⟩ 5
    rfl rfl (fun j hj => absurd hj (by omega)) rfl (by omega)
  exact ⟨hmain, hbelow, h.2.2.1 ⟨"NetError", "down"⟩ (by decide), h.2.2.2.2 ⟨"NetError", "down"⟩⟩
